import Mathlib

/-!
Shallow embedding of the runtime-acquisition and caching subsystem of the
`anistark/wasmhub` repository (Rust). The embedded modules are
`src/runtime.rs` (language identity and the `Runtime` descriptor),
`src/error.rs` (the error enumeration), `src/manifest.rs` (the manifest
data model), `src/cache.rs` (the disk cache) and `src/loader.rs` (the
CDN-fallback loader).

Modelling conventions:
* Byte strings are `List Nat`.
* The filesystem is a total map from path strings to an abstract file
  state (`absent`, unreadable in one of two ways, or `present` with
  content); `fs::write` on this abstract filesystem always succeeds, and
  `fs::create_dir_all` is a no-op, so I/O write failures are out of scope.
* SHA-256 comes from the external `sha2` crate (not code of this
  repository); it is abstracted as a parameter `H : List Nat → String`
  applied to the full content. The streaming loop of
  `CacheManager::compute_sha256` (8192-byte chunks) hashes exactly the
  whole file content, which is what `H` receives.
* Rust `HashMap` is modelled as an association list without duplicate
  keys; `insert` replaces the value at an existing key in place, exactly
  like `HashMap::insert`.
* The network (`reqwest::Client`) is an oracle `Net` mapping each URL to
  the outcome the underlying transport and JSON decoder would produce:
  either a value or an `Error`. Async suspension is irrelevant to the
  claims and is erased.
-/

namespace WasmHub

/-- Language enumeration from `src/runtime.rs` (`pub enum Language`). -/
inductive Language
  | NodeJs
  | Python
  | Ruby
  | Php
  | Go
  | Rust
deriving DecidableEq

/-- Embedding of `Language::as_str` (src/runtime.rs lines 16-25). -/
def Language.as_str : Language → String
  | .NodeJs => "nodejs"
  | .Python => "python"
  | .Ruby => "ruby"
  | .Php => "php"
  | .Go => "go"
  | .Rust => "rust"

/-- Embedding of `Language::all` (src/runtime.rs lines 27-36): the fixed
slice of the six variants in declaration order. -/
def Language.all : List Language :=
  [Language.NodeJs, Language.Python, Language.Ruby, Language.Php, Language.Go, Language.Rust]

/-- Embedding of Rust `str::to_lowercase` as used by the language parser:
lower-case each character. Rust's version is Unicode-aware; for the ASCII
alias table only the ASCII mapping matters, which `Char.toLower`
performs. -/
def to_lowercase (s : String) : String :=
  String.mk (s.data.map Char.toLower)

/-- Embedding of `impl FromStr for Language` (src/runtime.rs lines 39-53).
The Rust code lower-cases the input and matches it against the alias
literals; the `match` with `|`-alternatives is rendered as a chain of
conditionals with disjunctive conditions, one per match arm, in source
order. The error string embeds `format!("Unknown language: \x7b\x7d", s)`. -/
def Language.from_str (s : String) : Except String Language :=
  if to_lowercase s = "nodejs" ∨ to_lowercase s = "node" ∨ to_lowercase s = "node.js" then .ok .NodeJs
  else if to_lowercase s = "python" ∨ to_lowercase s = "py" then .ok .Python
  else if to_lowercase s = "ruby" ∨ to_lowercase s = "rb" then .ok .Ruby
  else if to_lowercase s = "php" then .ok .Php
  else if to_lowercase s = "go" ∨ to_lowercase s = "golang" then .ok .Go
  else if to_lowercase s = "rust" ∨ to_lowercase s = "rs" then .ok .Rust
  else .error ("Unknown language: " ++ s)

/-- The alias table of `FromStr for Language`, read off the match arms of
src/runtime.rs lines 43-50: for each language, the lowercase strings that
parse to it (the canonical name is among them). -/
def Language.aliases : Language → List String
  | .NodeJs => ["nodejs", "node", "node.js"]
  | .Python => ["python", "py"]
  | .Ruby => ["ruby", "rb"]
  | .Php => ["php"]
  | .Go => ["go", "golang"]
  | .Rust => ["rust", "rs"]

/-- Every lowercase string accepted by any arm of the `FromStr` match,
in source order. -/
def alias_table_strings : List String :=
  ["nodejs", "node", "node.js", "python", "py", "ruby", "rb", "php", "go", "golang", "rust", "rs"]

/-- Error enumeration from `src/error.rs` (`pub enum Error`). Payloads
carried by external library types (`reqwest::Error`, `std::io::Error`,
`serde_json::Error`) are modelled as message strings. `IoError` embeds the
variant named `Io` in the source. -/
inductive Error
  | RuntimeNotFound (language version : String)
  | Network (msg : String)
  | IoError (msg : String)
  | IntegrityCheckFailed (expected actual : String)
  | JsonError (msg : String)
  | InvalidLanguage (msg : String)
  | ManifestNotFound (language : String)
  | VersionNotFound (language version : String)
  | Other (msg : String)
deriving DecidableEq

/-- Embedding of `impl From<String> for Error` (src/error.rs lines 36-40):
the error string produced by `Language::from_str` is converted to
`Error::InvalidLanguage`. -/
def Error.fromString (s : String) : Error :=
  Error.InvalidLanguage s

/-- Runtime descriptor from `src/runtime.rs` (`pub struct Runtime`).
`path` is a `PathBuf` rendered as a string. -/
structure Runtime where
  language : Language
  version : String
  path : String
  size : Nat
  sha256 : String
deriving DecidableEq

/-- Embedding of `Runtime::new` (src/runtime.rs lines 71-85). -/
def Runtime.new (language : Language) (version path : String) (size : Nat) (sha256 : String) : Runtime :=
  ⟨language, version, path, size, sha256⟩

/-- Per-language runtime information from `src/manifest.rs`
(`pub struct RuntimeInfo`). -/
structure RuntimeInfo where
  latest : String
  lts : Option String
  versions : List String
  source : String
  license : String
deriving DecidableEq

/-- Embedding of `RuntimeInfo::add_version` (src/manifest.rs lines 73-77):
push the version only when `versions` does not already contain it. -/
def RuntimeInfo.add_version (i : RuntimeInfo) (version : String) : RuntimeInfo :=
  if version ∈ i.versions then i else { i with versions := i.versions ++ [version] }

/-- Per-version metadata from `src/manifest.rs` (`pub struct RuntimeVersion`). -/
structure RuntimeVersion where
  file : String
  size : Nat
  sha256 : String
  released : String
  wasi : Bool
  features : List String
  url : String
deriving DecidableEq

/-- Rust `HashMap::insert` keyed by strings, modelled on an association
list without duplicate keys: replace the value at the key in place if the
key is present, otherwise append the new entry. -/
def insertAL {β : Type} : List (String × β) → String → β → List (String × β)
  | [], k, v => [(k, v)]
  | (k1, v1) :: rest, k, v =>
    if k1 = k then (k, v) :: rest else (k1, v1) :: insertAL rest k v

/-- Rust `HashMap::get` keyed by strings, on the association-list model. -/
def lookupAL {β : Type} : List (String × β) → String → Option β
  | [], _ => none
  | (k1, v1) :: rest, k => if k1 = k then some v1 else lookupAL rest k

/-- Global manifest from `src/manifest.rs` (`pub struct GlobalManifest`);
the `languages` HashMap is the association-list model. -/
structure GlobalManifest where
  version : String
  languages : List (String × RuntimeInfo)
deriving DecidableEq

/-- Embedding of `GlobalManifest::get_language` (src/manifest.rs lines 52-54). -/
def GlobalManifest.get_language (m : GlobalManifest) (lang : String) : Option RuntimeInfo :=
  lookupAL m.languages lang

/-- Per-language manifest from `src/manifest.rs` (`pub struct RuntimeManifest`);
the `versions` HashMap is the association-list model. -/
structure RuntimeManifest where
  language : String
  versions : List (String × RuntimeVersion)
deriving DecidableEq

/-- Embedding of `RuntimeManifest::add_version` (src/manifest.rs lines
88-90): `self.versions.insert(version, info)`, which replaces the stored
value when the key already exists. -/
def RuntimeManifest.add_version (m : RuntimeManifest) (version : String) (info : RuntimeVersion) : RuntimeManifest :=
  { m with versions := insertAL m.versions version info }

/-- Embedding of `RuntimeManifest::get_version` (src/manifest.rs lines 92-94). -/
def RuntimeManifest.get_version (m : RuntimeManifest) (version : String) : Option RuntimeVersion :=
  lookupAL m.versions version

/-- Abstract state of one path on the filesystem: `absent` (the path does
not exist), `metaUnreadable` (the path exists but `fs::metadata` fails),
`contentUnreadable` (metadata succeeds reporting `size` but opening or
reading the file fails), or `present` with the file's content. -/
inductive FileState
  | absent
  | metaUnreadable
  | contentUnreadable (size : Nat)
  | present (data : List Nat)
deriving DecidableEq

/-- The filesystem: a total map from path strings to file states. -/
abbrev FS := String → FileState

/-- Embedding of `Path::exists`. -/
def path_exists (fs : FS) (p : String) : Bool :=
  match fs p with
  | .absent => false
  | _ => true

/-- Embedding of `fs::metadata(..).len()`: the file size, or an I/O error. -/
def fs_metadata (fs : FS) (p : String) : Except Error Nat :=
  match fs p with
  | .present data => .ok data.length
  | .contentUnreadable size => .ok size
  | _ => .error (.IoError ("metadata failed: " ++ p))

/-- Embedding of `fs::write`: replace the state at the path with the
written content (write failures are outside the model). -/
def FS.write (fs : FS) (p : String) (data : List Nat) : FS :=
  fun q => if q = p then FileState.present data else fs q

/-- Cache manager from `src/cache.rs` (`pub struct CacheManager`); the
`cache_dir` path is a string. -/
structure CacheManager where
  cache_dir : String

variable (H : List Nat → String)

/-- Embedding of `CacheManager::get_path` (src/cache.rs lines 29-33):
`<cache_dir>/<language-canonical-name>/<version>.wasm`. Pure, no I/O. -/
def CacheManager.get_path (c : CacheManager) (language : Language) (version : String) : String :=
  c.cache_dir ++ "/" ++ language.as_str ++ "/" ++ version ++ ".wasm"

/-- Embedding of `CacheManager::compute_sha256` (src/cache.rs lines
127-142): open the file and hash its whole content in a streaming loop.
The chunked loop hashes exactly the full content, so the result is `H`
of the content; any open or read failure is an I/O error. -/
def compute_sha256 (fs : FS) (p : String) : Except Error String :=
  match fs p with
  | .present data => .ok (H data)
  | _ => .error (.IoError ("open or read failed: " ++ p))

/-- Embedding of `CacheManager::get` (src/cache.rs lines 35-53): return
`none` when the path does not exist; then `fs::metadata(&path).ok()?` and
`Self::compute_sha256(&path).ok()?` turn any error into `none`; on
success build the descriptor from the recomputed size and digest. -/
def CacheManager.get (c : CacheManager) (fs : FS) (language : Language) (version : String) : Option Runtime :=
  if !path_exists fs (c.get_path language version) then none
  else
    match (fs_metadata fs (c.get_path language version)).toOption with
    | none => none
    | some size =>
      match (compute_sha256 H fs (c.get_path language version)).toOption with
      | none => none
      | some sha256 =>
        some (Runtime.new language version (c.get_path language version) size sha256)

/-- Embedding of `CacheManager::store` (src/cache.rs lines 55-74): create
the parent directories, write the bytes (both always succeed on the
abstract filesystem), take `size = data.len()`, recompute the digest from
the written file, and return the new filesystem together with the
descriptor. -/
def CacheManager.store (c : CacheManager) (fs : FS) (language : Language) (version : String) (data : List Nat) : FS × Except Error Runtime :=
  let fs2 := FS.write fs (c.get_path language version) data
  match compute_sha256 H fs2 (c.get_path language version) with
  | .error e => (fs2, .error e)
  | .ok sha256 =>
    (fs2, .ok (Runtime.new language version (c.get_path language version) data.length sha256))

/-- Embedding of `CacheManager::verify_integrity` (src/cache.rs lines
144-153): recompute the digest from `runtime.path` and fail with
`IntegrityCheckFailed` when it differs from the expected one. -/
def CacheManager.verify_integrity (c : CacheManager) (fs : FS) (runtime : Runtime) (expected_sha256 : String) : Except Error Unit :=
  match compute_sha256 H fs runtime.path with
  | .error e => .error e
  | .ok actual_sha256 =>
    if actual_sha256 ≠ expected_sha256 then
      .error (.IntegrityCheckFailed expected_sha256 actual_sha256)
    else
      .ok ()

/-- CDN source enumeration from `src/loader.rs` (`pub enum CdnSource`). -/
inductive CdnSource
  | GitHubReleases
  | JsDelivr
deriving DecidableEq

/-- Constant `GITHUB_RELEASES_BASE` from src/loader.rs line 11. -/
def GITHUB_RELEASES_BASE : String :=
  "https://github.com/anistark/wasm-runtime/releases/download"

/-- Constant `JSDELIVR_BASE` from src/loader.rs line 12. -/
def JSDELIVR_BASE : String :=
  "https://cdn.jsdelivr.net/gh/anistark/wasm-runtime@latest"

/-- Embedding of `CdnSource::base_url` (src/loader.rs lines 21-26). -/
def CdnSource.base_url : CdnSource → String
  | .GitHubReleases => GITHUB_RELEASES_BASE
  | .JsDelivr => JSDELIVR_BASE

/-- Embedding of `RuntimeLoader::build_download_url` (src/loader.rs lines
94-114): the per-source binary URL template. -/
def build_download_url (source : CdnSource) (language : Language) (version : String) : String :=
  match source with
  | .GitHubReleases =>
    source.base_url ++ "/v" ++ version ++ "/" ++ language.as_str ++ "-" ++ version ++ ".wasm"
  | .JsDelivr =>
    source.base_url ++ "/runtimes/" ++ language.as_str ++ "/" ++ version ++ ".wasm"

/-- Per-source global-manifest URL, from the match inside
`RuntimeLoader::fetch_global_manifest` (src/loader.rs lines 202-209). -/
def global_manifest_url : CdnSource → String
  | .GitHubReleases => GITHUB_RELEASES_BASE ++ "/latest/manifest.json"
  | .JsDelivr => JSDELIVR_BASE ++ "/manifest.json"

/-- Per-source per-language-manifest URL, from the match inside
`RuntimeLoader::fetch_runtime_manifest` (src/loader.rs lines 226-241). -/
def runtime_manifest_url (source : CdnSource) (language : Language) : String :=
  match source with
  | .GitHubReleases =>
    GITHUB_RELEASES_BASE ++ "/latest/runtimes/" ++ language.as_str ++ "/manifest.json"
  | .JsDelivr =>
    JSDELIVR_BASE ++ "/runtimes/" ++ language.as_str ++ "/manifest.json"

/-- Network oracle standing for `reqwest::Client` together with the JSON
decoder: what `download_from_url` and the two typed `fetch_json` calls
would return for each URL (a value, or a `Network`/`JsonError` style
`Error`). -/
structure Net where
  download : String → Except Error (List Nat)
  fetch_global : String → Except Error GlobalManifest
  fetch_runtime : String → Except Error RuntimeManifest

/-- Runtime loader from `src/loader.rs` (`pub struct RuntimeLoader`); the
HTTP client is replaced by the `Net` oracle, which is a call-time
argument of the embedded methods. -/
structure RuntimeLoader where
  cache : CacheManager
  cdn_sources : List CdnSource

/-- The source-fallback loop of `RuntimeLoader::fetch_global_manifest`
(src/loader.rs lines 199-221): try each source in order, return the first
success, record each failure as the last error, and when the list is
exhausted return the last recorded error or
`Error::Other("Failed to fetch manifest")`. -/
def fetch_global_manifest_go (net : Net) : List CdnSource → Option Error → Except Error GlobalManifest
  | [], last_error => .error (last_error.getD (.Other "Failed to fetch manifest"))
  | source :: rest, last_error =>
    match net.fetch_global (global_manifest_url source) with
    | .ok manifest => .ok manifest
    | .error e => fetch_global_manifest_go net rest (some e)

/-- Embedding of `RuntimeLoader::fetch_global_manifest` (src/loader.rs
lines 199-221): run the fallback loop over the configured sources with no
error recorded yet. The unused `last_error` binder in the base case keeps
the loop's accumulator explicit. -/
def RuntimeLoader.fetch_global_manifest (net : Net) (loader : RuntimeLoader) : Except Error GlobalManifest :=
  fetch_global_manifest_go net loader.cdn_sources none

/-- The source-fallback loop of `RuntimeLoader::fetch_runtime_manifest`
(src/loader.rs lines 223-255): as for the global manifest, but the
exhaustion fallback is `Error::ManifestNotFound` for the language. -/
def fetch_runtime_manifest_go (net : Net) (language : Language) : List CdnSource → Option Error → Except Error RuntimeManifest
  | [], last_error => .error (last_error.getD (.ManifestNotFound language.as_str))
  | source :: rest, last_error =>
    match net.fetch_runtime (runtime_manifest_url source language) with
    | .ok manifest => .ok manifest
    | .error e => fetch_runtime_manifest_go net language rest (some e)

/-- Embedding of `RuntimeLoader::fetch_runtime_manifest` (src/loader.rs
lines 223-255). -/
def RuntimeLoader.fetch_runtime_manifest (net : Net) (loader : RuntimeLoader) (language : Language) : Except Error RuntimeManifest :=
  fetch_runtime_manifest_go net language loader.cdn_sources none

/-- The binary-download fallback loop of `RuntimeLoader::download_runtime`
(src/loader.rs lines 69-91): for each source in order build the download
URL and attempt the download; on a transport failure record it as the
last error and continue; on success compare the computed hash with the
manifest digest — on mismatch fail immediately with
`IntegrityCheckFailed \x7b expected: manifest digest, actual: computed \x7d`,
on match store into the cache and return the stored descriptor; when the
list is exhausted return the last recorded error or
`Error::Other("All CDN sources failed")`. The filesystem is threaded
through because only `CacheManager::store` may change it. -/
def download_loop (net : Net) (c : CacheManager) (fs : FS) (language : Language) (version : String) (version_info : RuntimeVersion) : List CdnSource → Option Error → FS × Except Error Runtime
  | [], last_error => (fs, .error (last_error.getD (.Other "All CDN sources failed")))
  | source :: rest, last_error =>
    match net.download (build_download_url source language version) with
    | .ok data =>
      if H data ≠ version_info.sha256 then
        (fs, .error (.IntegrityCheckFailed version_info.sha256 (H data)))
      else
        CacheManager.store H c fs language version data
    | .error e => download_loop net c fs language version version_info rest (some e)

/-- Embedding of `RuntimeLoader::download_runtime` (src/loader.rs lines
60-92): fetch the per-language manifest (propagating its failure), look
up the requested version (failing with `VersionNotFound` when absent),
then run the binary-download fallback loop. -/
def RuntimeLoader.download_runtime (net : Net) (loader : RuntimeLoader) (fs : FS) (language : Language) (version : String) : FS × Except Error Runtime :=
  match RuntimeLoader.fetch_runtime_manifest net loader language with
  | .error e => (fs, .error e)
  | .ok manifest =>
    match manifest.get_version version with
    | none => (fs, .error (.VersionNotFound language.as_str version))
    | some version_info =>
      download_loop H net loader.cache fs language version version_info loader.cdn_sources none

/-- Embedding of `RuntimeLoader::get_runtime` (src/loader.rs lines 52-58):
return the cached descriptor when the cache lookup hits, otherwise
delegate to `download_runtime`. -/
def RuntimeLoader.get_runtime (net : Net) (loader : RuntimeLoader) (fs : FS) (language : Language) (version : String) : FS × Except Error Runtime :=
  match CacheManager.get H loader.cache fs language version with
  | some runtime => (fs, .ok runtime)
  | none => RuntimeLoader.download_runtime H net loader fs language version

/-! Concrete sample values used to evaluate the definitions on closed
inputs. -/

/-- A concrete stand-in digest function: every byte string hashes to
`"beef"`. -/
def hashConst : List Nat → String :=
  fun _ => "beef"

/-- A filesystem with no files. -/
def fsEmpty : FS :=
  fun _ => FileState.absent

/-- A filesystem where every path holds the bytes `[1, 2, 3]`. -/
def fsAll : FS :=
  fun _ => FileState.present [1, 2, 3]

/-- A filesystem where every path exists but its metadata is unreadable. -/
def fsMeta : FS :=
  fun _ => FileState.metaUnreadable

/-- A concrete cache manager rooted at `/cache`. -/
def cm0 : CacheManager :=
  ⟨"/cache"⟩

/-- A loader with the default source order of `RuntimeLoader::new`. -/
def loader0 : RuntimeLoader :=
  ⟨cm0, [CdnSource.GitHubReleases, CdnSource.JsDelivr]⟩

/-- A concrete empty global manifest. -/
def gm0 : GlobalManifest :=
  ⟨"1.0.0", []⟩

/-- Concrete version metadata declaring digest `"d1"`. -/
def rv1 : RuntimeVersion :=
  ⟨"python-3.11.7.wasm", 14, "d1", "2024-01-01", false, [], "https://example.com/python-3.11.7.wasm"⟩

/-- Concrete version metadata declaring digest `"d2"`. -/
def rv2 : RuntimeVersion :=
  ⟨"python-3.11.7.wasm", 20, "d2", "2024-02-01", true, ["wasi"], "https://example.com/python-3.11.7b.wasm"⟩

/-- A concrete per-language manifest holding `rv1` under `"3.11.7"`. -/
def rm0 : RuntimeManifest :=
  ⟨"python", [("3.11.7", rv1)]⟩

/-- Concrete runtime information with one known version. -/
def info0 : RuntimeInfo :=
  ⟨"1.0", none, ["1.0"], "https://example.com", "MIT"⟩

/-- A network where every download succeeds with bytes `[9, 9]` and both
manifest fetches succeed. -/
def net1 : Net :=
  ⟨fun _ => .ok [9, 9], fun _ => .ok gm0, fun _ => .ok rm0⟩

/-- A network where every request fails. -/
def net2 : Net :=
  ⟨fun _ => .error (.Network "boom"), fun _ => .error (.Network "down"),
    fun _ => .error (.Network "bad json")⟩

/-! Theorems. -/

/-- C3: for every language, version and content bytes, `store` returns a
descriptor whose `sha256` is the digest of the bytes and whose `size` is
their length; a following `get` returns the same descriptor; and the
entry at the key is overwritten with the new content unconditionally,
whatever state (absent, unreadable, or other content) was there before. -/
theorem store_then_get_roundtrip (H : List Nat → String) (c : CacheManager) (fs : FS) (l : Language) (v : String) (data : List Nat) :
    (CacheManager.store H c fs l v data).2 =
        .ok (Runtime.new l v (c.get_path l v) data.length (H data))
    ∧ CacheManager.get H c (CacheManager.store H c fs l v data).1 l v =
        some (Runtime.new l v (c.get_path l v) data.length (H data))
    ∧ (CacheManager.store H c fs l v data).1 (c.get_path l v) = FileState.present data := by
  refine ⟨?_, ?_, ?_⟩ <;>
    simp [CacheManager.store, CacheManager.get, compute_sha256, path_exists, fs_metadata,
      FS.write, Except.toOption]

/-- C7: when the digest recomputed from the file at `runtime.path` is
`actual`, `verify_integrity runtime expected` succeeds exactly when
`expected = actual`, and on failure the error is
`IntegrityCheckFailed` carrying `expected` and `actual`. -/
theorem verify_integrity_iff (H : List Nat → String) (c : CacheManager) (fs : FS) (r : Runtime) (expected actual : String)
    (hsha : compute_sha256 H fs r.path = .ok actual) :
    (CacheManager.verify_integrity H c fs r expected = .ok () ↔ expected = actual)
    ∧ (expected ≠ actual →
        CacheManager.verify_integrity H c fs r expected =
          .error (.IntegrityCheckFailed expected actual)) := by
  constructor
  · by_cases h : actual = expected
    · subst h; simp [CacheManager.verify_integrity, hsha]
    · simp only [CacheManager.verify_integrity, hsha]
      rw [if_pos h]
      exact iff_of_false (by simp) (fun he => h he.symm)
  · intro hne
    simp only [CacheManager.verify_integrity, hsha]
    rw [if_pos (fun he => hne he.symm)]

/-- C9: `CacheManager::get` never surfaces an error: it returns `none`
when the path is absent, when reading the metadata fails, and when
computing the digest fails — an unreadable entry is indistinguishable
from a missing one — and returns a descriptor exactly when the file is
present and readable. -/
theorem cache_get_never_errors (H : List Nat → String) (c : CacheManager) (fs : FS) (l : Language) (v : String) :
    (fs (c.get_path l v) = .absent → CacheManager.get H c fs l v = none)
    ∧ (fs (c.get_path l v) = .metaUnreadable → CacheManager.get H c fs l v = none)
    ∧ (∀ n, fs (c.get_path l v) = .contentUnreadable n → CacheManager.get H c fs l v = none)
    ∧ (∀ data, fs (c.get_path l v) = .present data →
        CacheManager.get H c fs l v =
          some (Runtime.new l v (c.get_path l v) data.length (H data))) := by
  refine ⟨fun h => ?_, fun h => ?_, fun n h => ?_, fun data h => ?_⟩ <;>
    simp [CacheManager.get, path_exists, fs_metadata, compute_sha256, h, Except.toOption]

/-- C5: the canonical name of each language is among its aliases; parsing
any string whose lowercased form is a declared alias of a language (so
any letter-casing of the alias) yields that language; and parsing any
string whose lowercased form is outside the alias table fails, with the
error string converting to `Error::InvalidLanguage`. -/
theorem language_alias_parsing :
    (∀ L : Language, L.as_str ∈ L.aliases)
    ∧ (∀ (L : Language) (a s : String), a ∈ L.aliases → to_lowercase s = a →
        Language.from_str s = .ok L)
    ∧ (∀ s : String, to_lowercase s ∉ alias_table_strings →
        Language.from_str s = .error ("Unknown language: " ++ s)
        ∧ Error.fromString ("Unknown language: " ++ s) =
            Error.InvalidLanguage ("Unknown language: " ++ s)) := by
  refine ⟨fun L => by cases L <;> simp [Language.aliases, Language.as_str],
    fun L a s ha hs => ?_, fun s hs => ⟨?_, rfl⟩⟩
  · cases L <;> simp only [Language.aliases, List.mem_cons, List.mem_singleton,
      List.not_mem_nil, or_false] at ha
    · rcases ha with rfl | rfl | rfl <;> simp [Language.from_str, hs]
    · rcases ha with rfl | rfl <;> simp [Language.from_str, hs]
    · rcases ha with rfl | rfl <;> simp [Language.from_str, hs]
    · subst ha; simp [Language.from_str, hs]
    · rcases ha with rfl | rfl <;> simp [Language.from_str, hs]
    · rcases ha with rfl | rfl <;> simp [Language.from_str, hs]
  · simp only [alias_table_strings, List.mem_cons, List.not_mem_nil, or_false, not_or] at hs
    obtain ⟨h1, h2, h3, h4, h5, h6, h7, h8, h9, h10, h11, h12⟩ := hs
    simp [Language.from_str, h1, h2, h3, h4, h5, h6, h7, h8, h9, h10, h11, h12]

/-- C6 counterexample: the canonical identifiers of `Language::all`, in
declaration order, are not `node, python, ruby, php, go, rust` — the
first language's canonical name is `nodejs`, not `node`. -/
theorem language_canonical_names_counterexample :
    ¬ (Language.all.map Language.as_str = ["node", "python", "ruby", "php", "go", "rust"]) := by
  decide

/-- C6 (amended): `Language` is a closed enumeration of exactly six
variants whose canonical lowercase identifiers are `nodejs, python, ruby,
php, go, rust`, and `all` returns exactly these six in declaration
order. -/
theorem language_closed_enumeration :
    Language.all = [Language.NodeJs, Language.Python, Language.Ruby, Language.Php,
        Language.Go, Language.Rust]
    ∧ Language.all.map Language.as_str = ["nodejs", "python", "ruby", "php", "go", "rust"]
    ∧ Language.all.length = 6
    ∧ (∀ L : Language, L ∈ Language.all) :=
  ⟨rfl, by decide, rfl, fun L => by cases L <;> simp [Language.all]⟩

/-- C8: `RuntimeInfo::add_version` appends only a version not already
present; adding an existing version is a no-op, the operation is
idempotent, and a duplicate-free versions list stays duplicate-free. -/
theorem runtime_info_add_version_dedup (i : RuntimeInfo) (v : String) :
    (v ∈ i.versions → i.add_version v = i)
    ∧ (v ∉ i.versions → (i.add_version v).versions = i.versions ++ [v])
    ∧ (i.add_version v).add_version v = i.add_version v
    ∧ (i.versions.Nodup → ((i.add_version v).versions).Nodup) := by
  refine ⟨fun h => by simp [RuntimeInfo.add_version, h],
    fun h => by simp [RuntimeInfo.add_version, h], ?_, fun hnd => ?_⟩
  · by_cases h : v ∈ i.versions <;> simp [RuntimeInfo.add_version, h]
  · by_cases h : v ∈ i.versions
    · simpa [RuntimeInfo.add_version, h] using hnd
    · simp [RuntimeInfo.add_version, h, List.nodup_append, hnd]

/-- Looking up the key just inserted by `insertAL` returns the inserted
value. -/
theorem lookupAL_insertAL {β : Type} (m : List (String × β)) (k : String) (v : β) :
    lookupAL (insertAL m k v) k = some v := by
  induction m with
  | nil => simp [insertAL, lookupAL]
  | cons p rest ih =>
    obtain ⟨k1, v1⟩ := p
    by_cases h : k1 = k
    · simp [insertAL, h, lookupAL]
    · simp [insertAL, h, lookupAL, ih]

/-- The key list after `insertAL`: unchanged when the key was present,
extended by the key otherwise. -/
theorem keys_insertAL {β : Type} (m : List (String × β)) (k : String) (v : β) :
    (insertAL m k v).map Prod.fst =
      if k ∈ m.map Prod.fst then m.map Prod.fst else m.map Prod.fst ++ [k] := by
  induction m with
  | nil => simp [insertAL]
  | cons p rest ih =>
    obtain ⟨k1, v1⟩ := p
    by_cases h : k1 = k
    · subst h; simp [insertAL]
    · by_cases h2 : k ∈ rest.map Prod.fst <;>
        simp [insertAL, h, ih, h2, Ne.symm h]

/-- C10: inserting metadata twice under the same version key into a
`RuntimeManifest` with duplicate-free keys leaves exactly one entry for
that key, carrying the second metadata value — `HashMap::insert`
replaces, unlike `RuntimeInfo::add_version`'s no-op on duplicates. -/
theorem runtime_manifest_add_version_last_write_wins (m : RuntimeManifest) (v : String) (i1 i2 : RuntimeVersion)
    (hnd : (m.versions.map Prod.fst).Nodup) :
    ((m.add_version v i1).add_version v i2).get_version v = some i2
    ∧ ((((m.add_version v i1).add_version v i2).versions.map Prod.fst).count v = 1)
    ∧ ((((m.add_version v i1).add_version v i2).versions.map Prod.fst)).Nodup := by
  have hk1 : ((m.add_version v i1).versions.map Prod.fst) =
      if v ∈ m.versions.map Prod.fst then m.versions.map Prod.fst
      else m.versions.map Prod.fst ++ [v] := keys_insertAL m.versions v i1
  have hmem1 : v ∈ (m.add_version v i1).versions.map Prod.fst := by
    rw [hk1]; by_cases h : v ∈ m.versions.map Prod.fst <;> simp [h]
  have hnd1 : ((m.add_version v i1).versions.map Prod.fst).Nodup := by
    rw [hk1]; by_cases h : v ∈ m.versions.map Prod.fst
    · simpa [h] using hnd
    · simp [h, List.nodup_append, hnd]
  have hk2 : (((m.add_version v i1).add_version v i2).versions.map Prod.fst) =
      (m.add_version v i1).versions.map Prod.fst := by
    have := keys_insertAL (m.add_version v i1).versions v i2
    rw [if_pos hmem1] at this
    exact this
  refine ⟨lookupAL_insertAL _ v i2, ?_, ?_⟩
  · rw [hk2]
    exact List.count_eq_one_of_mem hnd1 hmem1
  · rw [hk2]; exact hnd1

/-- C2: when the cache lookup returns a descriptor, `get_runtime` returns
exactly that descriptor with the filesystem unchanged — the equation
holds for every network oracle, so no manifest fetch, download or
re-verification can have taken place; only when the lookup is absent does
`get_runtime` delegate to `download_runtime`. -/
theorem get_runtime_cache_first (H : List Nat → String) (net : Net) (loader : RuntimeLoader) (fs : FS) (l : Language) (v : String) :
    (∀ r, CacheManager.get H loader.cache fs l v = some r →
      RuntimeLoader.get_runtime H net loader fs l v = (fs, .ok r))
    ∧ (CacheManager.get H loader.cache fs l v = none →
      RuntimeLoader.get_runtime H net loader fs l v =
        RuntimeLoader.download_runtime H net loader fs l v) := by
  constructor
  · intro r h
    simp [RuntimeLoader.get_runtime, h]
  · intro h
    simp [RuntimeLoader.get_runtime, h]

/-- C1: when the fetched per-language manifest declares digest
`version_info.sha256` for the requested version, and the first configured
source's download succeeds with bytes hashing to a different digest,
`download_runtime` fails with `IntegrityCheckFailed` carrying the
declared digest as `expected` and the computed one as `actual`, and
returns the filesystem unchanged, so nothing was stored in the cache.
The remaining sources and the network's answers for their URLs are
universally quantified and absent from the conclusion, so no later
source is attempted. -/
theorem download_runtime_integrity_abort (H : List Nat → String) (net : Net) (loader : RuntimeLoader) (fs : FS) (l : Language) (v : String)
    (m : RuntimeManifest) (version_info : RuntimeVersion) (s : CdnSource) (rest : List CdnSource) (data : List Nat)
    (hm : RuntimeLoader.fetch_runtime_manifest net loader l = .ok m)
    (hv : m.get_version v = some version_info)
    (hs : loader.cdn_sources = s :: rest)
    (hd : net.download (build_download_url s l v) = .ok data)
    (hbad : H data ≠ version_info.sha256) :
    RuntimeLoader.download_runtime H net loader fs l v =
      (fs, .error (.IntegrityCheckFailed version_info.sha256 (H data))) := by
  simp only [RuntimeLoader.download_runtime, hm, hv, hs, download_loop, hd]
  rw [if_pos hbad]

/-- C4: in the global-manifest fetch, the per-language-manifest fetch and
the binary-download loop, sources are tried strictly in configured order
starting from an empty error accumulator; a per-source failure is
swallowed and recorded as the last error before moving on; the loop stops
at the first success (in the download loop, a successful download goes
straight to the hash check and never reaches the remaining sources); and
an exhausted list yields the last recorded error, or the loop's fixed
fallback error (`Other "Failed to fetch manifest"`,
`ManifestNotFound language`, `Other "All CDN sources failed"`) when no
source was attempted. -/
theorem fallback_loop_order (H : List Nat → String) (net : Net) (s : CdnSource) (rest : List CdnSource) (last_error : Option Error)
    (l : Language) (c : CacheManager) (fs : FS) (v : String) (version_info : RuntimeVersion) :
    (fetch_global_manifest_go net [] last_error =
        .error (last_error.getD (.Other "Failed to fetch manifest")))
    ∧ (∀ m, net.fetch_global (global_manifest_url s) = .ok m →
        fetch_global_manifest_go net (s :: rest) last_error = .ok m)
    ∧ (∀ e, net.fetch_global (global_manifest_url s) = .error e →
        fetch_global_manifest_go net (s :: rest) last_error =
          fetch_global_manifest_go net rest (some e))
    ∧ (RuntimeLoader.fetch_global_manifest net ⟨c, s :: rest⟩ =
        fetch_global_manifest_go net (s :: rest) none)
    ∧ (fetch_runtime_manifest_go net l [] last_error =
        .error (last_error.getD (.ManifestNotFound l.as_str)))
    ∧ (∀ m, net.fetch_runtime (runtime_manifest_url s l) = .ok m →
        fetch_runtime_manifest_go net l (s :: rest) last_error = .ok m)
    ∧ (∀ e, net.fetch_runtime (runtime_manifest_url s l) = .error e →
        fetch_runtime_manifest_go net l (s :: rest) last_error =
          fetch_runtime_manifest_go net l rest (some e))
    ∧ (RuntimeLoader.fetch_runtime_manifest net ⟨c, s :: rest⟩ l =
        fetch_runtime_manifest_go net l (s :: rest) none)
    ∧ (download_loop H net c fs l v version_info [] last_error =
        (fs, .error (last_error.getD (.Other "All CDN sources failed"))))
    ∧ (∀ e, net.download (build_download_url s l v) = .error e →
        download_loop H net c fs l v version_info (s :: rest) last_error =
          download_loop H net c fs l v version_info rest (some e))
    ∧ (∀ data, net.download (build_download_url s l v) = .ok data →
        download_loop H net c fs l v version_info (s :: rest) last_error =
          (if H data ≠ version_info.sha256 then
            (fs, .error (.IntegrityCheckFailed version_info.sha256 (H data)))
          else CacheManager.store H c fs l v data)) := by
  refine ⟨rfl, fun m hm => ?_, fun e he => ?_, rfl, rfl, fun m hm => ?_, fun e he => ?_, rfl,
    rfl, fun e he => ?_, fun data hd => ?_⟩ <;>
    simp [fetch_global_manifest_go, fetch_runtime_manifest_go, download_loop, *]

/-- Witness for C1: with the default two-source loader, a manifest
declaring digest `"d1"` and a first source serving bytes hashing to
`"beef"`, the download fails with
`IntegrityCheckFailed \x7b expected: "d1", actual: "beef" \x7d` and the
(empty) cache filesystem is returned unchanged. -/
theorem download_runtime_integrity_abort_witness :
    RuntimeLoader.download_runtime hashConst net1 loader0 fsEmpty Language.Python "3.11.7" =
      (fsEmpty, .error (.IntegrityCheckFailed "d1" "beef")) :=
  download_runtime_integrity_abort hashConst net1 loader0 fsEmpty Language.Python "3.11.7"
    rm0 rv1 CdnSource.GitHubReleases [CdnSource.JsDelivr] [9, 9] rfl rfl rfl rfl (by decide)

/-- Witness for C2: with the bytes `[1, 2, 3]` cached, `get_runtime`
returns the cached descriptor unchanged even though every network request
would fail. -/
theorem get_runtime_cache_first_witness :
    RuntimeLoader.get_runtime hashConst net2 loader0 fsAll Language.Python "3.11.7" =
      (fsAll, .ok (Runtime.new Language.Python "3.11.7"
        (cm0.get_path Language.Python "3.11.7") 3 "beef")) :=
  (get_runtime_cache_first hashConst net2 loader0 fsAll Language.Python "3.11.7").1
    (Runtime.new Language.Python "3.11.7" (cm0.get_path Language.Python "3.11.7") 3 "beef") rfl

/-- Witness for C4: concrete runs of the three fallback loops — empty
source lists yield the fixed fallback errors, a first-source success is
returned, and a first-source failure is recorded as the last error before
the rest of the list is tried. -/
theorem fallback_loop_order_witness :
    fetch_global_manifest_go net2 [] none = .error (.Other "Failed to fetch manifest")
    ∧ fetch_global_manifest_go net1 [CdnSource.GitHubReleases] none = .ok gm0
    ∧ fetch_global_manifest_go net2 [CdnSource.GitHubReleases] none =
        fetch_global_manifest_go net2 [] (some (.Network "down"))
    ∧ fetch_runtime_manifest_go net2 Language.Python [] none =
        .error (.ManifestNotFound "python")
    ∧ fetch_runtime_manifest_go net1 Language.Python [CdnSource.JsDelivr] none = .ok rm0
    ∧ download_loop hashConst net2 cm0 fsEmpty Language.Python "3.11.7" rv1 []
        (some (.Network "boom")) = (fsEmpty, .error (.Network "boom"))
    ∧ download_loop hashConst net2 cm0 fsEmpty Language.Python "3.11.7" rv1
        [CdnSource.GitHubReleases] none =
        download_loop hashConst net2 cm0 fsEmpty Language.Python "3.11.7" rv1 []
          (some (.Network "boom")) :=
  ⟨(fallback_loop_order hashConst net2 CdnSource.GitHubReleases [] none Language.Python cm0
      fsEmpty "3.11.7" rv1).1,
    (fallback_loop_order hashConst net1 CdnSource.GitHubReleases [] none Language.Python cm0
      fsEmpty "3.11.7" rv1).2.1 gm0 rfl,
    (fallback_loop_order hashConst net2 CdnSource.GitHubReleases [] none Language.Python cm0
      fsEmpty "3.11.7" rv1).2.2.1 (.Network "down") rfl,
    (fallback_loop_order hashConst net2 CdnSource.GitHubReleases [] none Language.Python cm0
      fsEmpty "3.11.7" rv1).2.2.2.2.1,
    (fallback_loop_order hashConst net1 CdnSource.JsDelivr [] none Language.Python cm0
      fsEmpty "3.11.7" rv1).2.2.2.2.2.1 rm0 rfl,
    (fallback_loop_order hashConst net2 CdnSource.GitHubReleases []
      (some (.Network "boom")) Language.Python cm0 fsEmpty "3.11.7" rv1).2.2.2.2.2.2.2.2.1,
    (fallback_loop_order hashConst net2 CdnSource.GitHubReleases [] none Language.Python cm0
      fsEmpty "3.11.7" rv1).2.2.2.2.2.2.2.2.2.1 (.Network "boom") rfl⟩

/-- Witness for C5: `"GoLang"`, a mixed-case alias of Go, parses to Go;
`"JavaScript"` is outside the alias table, fails with the unknown-language
message, and the message converts to `Error::InvalidLanguage`. -/
theorem language_alias_parsing_witness :
    Language.from_str "GoLang" = .ok Language.Go
    ∧ Language.from_str "JavaScript" = .error "Unknown language: JavaScript"
    ∧ Error.fromString "Unknown language: JavaScript" =
        Error.InvalidLanguage "Unknown language: JavaScript" :=
  ⟨language_alias_parsing.2.1 Language.Go "golang" "GoLang" (by decide) (by decide),
    (language_alias_parsing.2.2 "JavaScript" (by decide)).1,
    (language_alias_parsing.2.2 "JavaScript" (by decide)).2⟩

/-- Witness for C7: with the file at the runtime's path hashing to
`"beef"`, verifying against `"d1"` fails with
`IntegrityCheckFailed \x7b expected: "d1", actual: "beef" \x7d`. -/
theorem verify_integrity_iff_witness :
    CacheManager.verify_integrity hashConst cm0 fsAll
        (Runtime.new Language.Python "3.11.7" "/cache/python/3.11.7.wasm" 3 "beef") "d1" =
      .error (.IntegrityCheckFailed "d1" "beef") :=
  (verify_integrity_iff hashConst cm0 fsAll
    (Runtime.new Language.Python "3.11.7" "/cache/python/3.11.7.wasm" 3 "beef")
    "d1" "beef" rfl).2 (by decide)

/-- Witness for C8: adding the already-known version `"1.0"` to `info0`
is a no-op, and adding the new version `"2.0"` appends it. -/
theorem runtime_info_add_version_dedup_witness :
    info0.add_version "1.0" = info0
    ∧ (info0.add_version "2.0").versions = ["1.0", "2.0"] :=
  ⟨(runtime_info_add_version_dedup info0 "1.0").1 (by decide),
    (runtime_info_add_version_dedup info0 "2.0").2.1 (by decide)⟩

/-- Witness for C9: on a filesystem where the cache path exists but its
metadata is unreadable, `get` returns `none` rather than an error. -/
theorem cache_get_never_errors_witness :
    CacheManager.get hashConst cm0 fsMeta Language.Python "3.11.7" = none :=
  (cache_get_never_errors hashConst cm0 fsMeta Language.Python "3.11.7").2.1 rfl

/-- Witness for C10: inserting `rv1` then `rv2` under `"3.11.7"` into
`rm0` leaves one entry for that key, holding `rv2`. -/
theorem runtime_manifest_add_version_last_write_wins_witness :
    ((rm0.add_version "3.11.7" rv1).add_version "3.11.7" rv2).get_version "3.11.7" = some rv2
    ∧ ((((rm0.add_version "3.11.7" rv1).add_version "3.11.7" rv2).versions.map
        Prod.fst).count "3.11.7" = 1) :=
  ⟨(runtime_manifest_add_version_last_write_wins rm0 "3.11.7" rv1 rv2 (by decide)).1,
    (runtime_manifest_add_version_last_write_wins rm0 "3.11.7" rv1 rv2 (by decide)).2.1⟩

end WasmHub
